import Mathlib

/-!
# MiniQTT — shallow embedding and verification

A shallow embedding of the MiniQTT MQTT v5 client protocol engine
(`src/protocol/types.rs`, `src/protocol/qos.rs`, `src/protocol/v5/*.rs`,
`src/client/mod.rs`) together with proofs about it.

Bytes are modelled as `Nat` (every byte value is `< 256` on the wire;
where Rust integer width matters — the `usize` subtraction in
`Publish::parse` — we wrap explicitly modulo `2 ^ 64`).  Byte strings are
`List Nat`.  Fallible Rust code is modelled with `Option` / explicit
result sum types; a `panic!`/`unwrap` failure is modelled as `none`.
-/

namespace MiniQTT

/-- `u8::from(bool)`. -/
def b2n (b : Bool) : Nat := if b then 1 else 0

/-- `u16::to_be_bytes` (the value is reduced mod `2 ^ 16` the way a Rust
`as u16` cast would; actual `u16` fields are already `< 2 ^ 16`). -/
def u16be (v : Nat) : List Nat := [v % 65536 / 256, v % 256]

/-- `u32::to_be_bytes`. -/
def u32be (v : Nat) : List Nat :=
  [v % 4294967296 / 16777216, v % 16777216 / 65536, v % 65536 / 256, v % 256]

/-! ## VariableByteInteger (`src/protocol/types.rs`)

The Rust type stores the integer in its encoded form as a zero-padded
`[u8; 4]`; we model that array as a 4-element `List Nat`. -/

/-- One iteration of the `VariableByteInteger::encode` loop: the byte
emitted when the remaining value is `num` (`num % 0x80`, with the
continuation bit set when `num / 0x80 > 0`). -/
def vbiEncByte (num : Nat) : Nat :=
  if num / 128 > 0 then num % 128 + 128 else num % 128

/-- The `[u8; 4]` produced by the 4-iteration `encode` loop; entry `i`
sees `num` after `i` divisions by `0x80`. -/
def vbiEncArr (num : Nat) : List Nat :=
  [vbiEncByte num, vbiEncByte (num / 128),
   vbiEncByte (num / 128 / 128), vbiEncByte (num / 128 / 128 / 128)]

/-- `VariableByteInteger::encode`: values above `0xfffffff` are rejected
(`VariableByteIntegerOverflow`), modelled as `none`. -/
def vbiEncode (num : Nat) : Option (List Nat) :=
  if num > 0xfffffff then none else some (vbiEncArr num)

/-- Result of `VariableByteInteger::parse`: `ok len arr`, recoverable
`notEnoughData`, or the `VariableByteIntegerInvalid` error. -/
inductive VbiRes where
  | ok (len : Nat) (arr : List Nat)
  | notEnoughData
  | invalid
deriving DecidableEq, Repr

/-- `VariableByteInteger::parse`.  The source's 4-iteration loop (break on
the first byte with a clear continuation bit, `NotEnoughData` when the
slice runs out, then `result[3] > 0x7f` check) is unrolled. -/
def vbiParse (data : List Nat) : VbiRes :=
  match data[0]? with
  | none => .notEnoughData
  | some b0 =>
    if b0 < 128 then .ok 1 [b0, 0, 0, 0]
    else
      match data[1]? with
      | none => .notEnoughData
      | some b1 =>
        if b1 < 128 then .ok 2 [b0, b1, 0, 0]
        else
          match data[2]? with
          | none => .notEnoughData
          | some b2 =>
            if b2 < 128 then .ok 3 [b0, b1, b2, 0]
            else
              match data[3]? with
              | none => .notEnoughData
              | some b3 =>
                if b3 > 127 then .invalid else .ok 4 [b0, b1, b2, b3]

/-- `VariableByteInteger::as_u32`: `Σ (byte & 0x7f) * 0x80^i` over the four
stored bytes (all intermediate values fit in `u32`, so plain `Nat`
arithmetic is exact). -/
def vbiAsU32 (arr : List Nat) : Nat :=
  match arr with
  | [a, b, c, d] => a % 128 + b % 128 * 128 + c % 128 * 16384 + d % 128 * 2097152
  | _ => 0

/-- `VariableByteInteger::size`: one plus the position of the first zero
byte in `arr[1..]` (or `3` when none is zero). -/
def vbiSize (arr : List Nat) : Nat :=
  match arr with
  | [_, b, c, d] =>
    if b = 0 then 1 else if c = 0 then 2 else if d = 0 then 3 else 4
  | _ => 0

/-- `VariableByteInteger::as_slice`: the first `size` bytes of the stored
array. -/
def vbiSlice (arr : List Nat) : List Nat := arr.take (vbiSize arr)

example : vbiEncode 0 = some [0, 0, 0, 0] := by decide
example : vbiEncode 128 = some [0x80, 1, 0, 0] := by decide
example : vbiEncode 200000000 = some [0x80, 0x84, 0xaf, 0x5f] := by decide
example : (vbiEncode 200000000).map vbiSlice = some [0x80, 0x84, 0xaf, 0x5f] := by decide
example : vbiParse [0x7f] = .ok 1 [0x7f, 0, 0, 0] := by decide
example : vbiParse [0x80] = .notEnoughData := by decide
example : vbiParse [0x80, 0x01] = .ok 2 [0x80, 1, 0, 0] := by decide
example : vbiParse [0x80, 0x01, 0xff] = .ok 2 [0x80, 1, 0, 0] := by decide
example : vbiParse [0xff, 0xff, 0xff, 0xff] = .invalid := by decide
example : vbiAsU32 [0x80, 0x84, 0xaf, 0x5f] = 200000000 := by decide


/-! ### VariableByteInteger round-trip (C1) -/

theorem vbiEncByte_of_lt {m : Nat} (h : m < 128) : vbiEncByte m = m := by
  simp [vbiEncByte, Nat.div_eq_of_lt h, Nat.mod_eq_of_lt h]

theorem vbiEncByte_of_ge {m : Nat} (h : 128 ≤ m) : vbiEncByte m = m % 128 + 128 := by
  have : 0 < m / 128 := Nat.div_pos h (by norm_num)
  simp [vbiEncByte, this]

theorem vbiEncArr_eq (n : Nat) :
    vbiEncArr n
      = [vbiEncByte n, vbiEncByte (n / 128), vbiEncByte (n / 16384),
         vbiEncByte (n / 2097152)] := by
  simp [vbiEncArr, Nat.div_div_eq_div_mul]

/-- C1: for every `n ≤ 0x0FFFFFFF`, `VariableByteInteger::encode` succeeds,
parsing the emitted bytes (`as_slice`) succeeds and returns the same stored
array (hence `as_u32` recovers `n`), the length consumed by `parse` is the
encoded `size`, and that size is 1/2/3/4 according to the claimed
thresholds. -/
theorem vbi_roundtrip (n : Nat) (h : n ≤ 0xfffffff) :
    vbiEncode n = some (vbiEncArr n) ∧
    vbiParse (vbiSlice (vbiEncArr n)) = .ok (vbiSize (vbiEncArr n)) (vbiEncArr n) ∧
    vbiAsU32 (vbiEncArr n) = n ∧
    vbiSize (vbiEncArr n)
      = (if n < 128 then 1 else if n < 16384 then 2 else if n < 2097152 then 3 else 4) := by
  refine ⟨by simp [vbiEncode]; omega, ?_⟩
  rcases Nat.lt_or_ge n 128 with h1 | h1
  · have harr : vbiEncArr n = [n, 0, 0, 0] := by
      rw [vbiEncArr_eq, vbiEncByte_of_lt h1, Nat.div_eq_of_lt h1,
        Nat.div_eq_of_lt (show n < 16384 by omega),
        Nat.div_eq_of_lt (show n < 2097152 by omega)]
      simp [vbiEncByte]
    have hsize : vbiSize (vbiEncArr n) = 1 := by rw [harr]; simp [vbiSize]
    refine ⟨?_, ?_, ?_⟩
    · rw [hsize, harr]; simp only [vbiSlice, vbiSize, vbiParse]
      norm_num [h1]
    · rw [harr]; simp only [vbiAsU32]; omega
    · rw [hsize, if_pos h1]
  · rcases Nat.lt_or_ge n 16384 with h2 | h2
    · have q1a : n / 128 ≠ 0 := by omega
      have q1b : n / 128 < 128 := by omega
      have harr : vbiEncArr n = [n % 128 + 128, n / 128, 0, 0] := by
        rw [vbiEncArr_eq, vbiEncByte_of_ge h1, vbiEncByte_of_lt q1b,
          Nat.div_eq_of_lt h2, Nat.div_eq_of_lt (show n < 2097152 by omega)]
        simp [vbiEncByte]
      have hsize : vbiSize (vbiEncArr n) = 2 := by
        rw [harr]; simp only [vbiSize]; rw [if_neg q1a]; norm_num
      refine ⟨?_, ?_, ?_⟩
      · rw [hsize, harr]; simp only [vbiSlice, vbiSize, vbiParse]
        rw [if_neg q1a]; norm_num
        intro hc; omega
      · rw [harr]; simp only [vbiAsU32]; omega
      · rw [hsize, if_neg (by omega), if_pos h2]
    · rcases Nat.lt_or_ge n 2097152 with h3 | h3
      · have q2a : n / 16384 ≠ 0 := by omega
        have q2b : n / 16384 < 128 := by omega
        have harr : vbiEncArr n = [n % 128 + 128, n / 128 % 128 + 128, n / 16384, 0] := by
          rw [vbiEncArr_eq, vbiEncByte_of_ge h1,
            vbiEncByte_of_ge (show 128 ≤ n / 128 by omega), vbiEncByte_of_lt q2b,
            Nat.div_eq_of_lt h3]
          simp [vbiEncByte]
        have hsize : vbiSize (vbiEncArr n) = 3 := by
          rw [harr]; simp only [vbiSize]
          rw [if_neg (by omega), if_neg q2a]; norm_num
        refine ⟨?_, ?_, ?_⟩
        · rw [hsize, harr]; simp only [vbiSlice, vbiSize, vbiParse]
          rw [if_neg (by omega), if_neg q2a]; norm_num
          intro hc; omega
        · rw [harr]; simp only [vbiAsU32]; omega
        · rw [hsize, if_neg (by omega), if_neg (by omega), if_pos h3]
      · have q3a : n / 2097152 ≠ 0 := by omega
        have q3b : n / 2097152 < 128 := by omega
        have harr : vbiEncArr n
            = [n % 128 + 128, n / 128 % 128 + 128, n / 16384 % 128 + 128, n / 2097152] := by
          rw [vbiEncArr_eq, vbiEncByte_of_ge h1,
            vbiEncByte_of_ge (show 128 ≤ n / 128 by omega),
            vbiEncByte_of_ge (show 128 ≤ n / 16384 by omega), vbiEncByte_of_lt q3b]
        have hsize : vbiSize (vbiEncArr n) = 4 := by
          rw [harr]; simp only [vbiSize]
          rw [if_neg (by omega), if_neg (by omega), if_neg q3a]
        refine ⟨?_, ?_, ?_⟩
        · rw [hsize, harr]; simp only [vbiSlice, vbiSize, vbiParse]
          rw [if_neg (by omega), if_neg (by omega), if_neg q3a]; norm_num
          intro hc; omega
        · rw [harr]; simp only [vbiAsU32]; omega
        · rw [hsize, if_neg (by omega), if_neg (by omega), if_neg (by omega)]

/-! ## Encoders (`Writable` impls)

`write_to` against an in-memory sink is modelled as the list of emitted
bytes; an `unwrap` panic inside a writer (only `Properties::write_to`
and `FixedHeader::new` have one) is modelled as `none`. -/

/-- `EncodedStr::size` / `BinaryData::size`: `2 + self.0.len()`. -/
def encodedStrSize (s : List Nat) : Nat := 2 + s.length

/-- `BinaryData::write_to`: the length as a truncating `as u16` cast in
big-endian, followed by all the data bytes. -/
def binaryDataWrite (d : List Nat) : List Nat := u16be d.length ++ d

/-- `EncodedStr::write_to` delegates to `BinaryData`. -/
def encodedStrWrite (s : List Nat) : List Nat := binaryDataWrite s

/-- `QoS` (`src/protocol/qos.rs`). -/
inductive QoS where
  | atMostOnce
  | atLeastOnce
  | exactlyOnce
deriving DecidableEq, Repr

/-- `u8::from(QoS)` (the `repr(u8)` discriminants 0/1/2). -/
def qosToU8 : QoS → Nat
  | .atMostOnce => 0
  | .atLeastOnce => 1
  | .exactlyOnce => 2

/-- `QoS::try_from(u8)`. -/
def qosTryFrom (v : Nat) : Option QoS :=
  match v with
  | 0 => some .atMostOnce
  | 1 => some .atLeastOnce
  | 2 => some .exactlyOnce
  | _ => none

/-- `ConnectProperty` (`src/protocol/v5/connect.rs`). -/
inductive ConnectProperty where
  | sessionExpiryInterval (v : Nat)
  | receiveMaximum (v : Nat)
  | maximumPacketSize (v : Nat)
  | topicAliasMaximum (v : Nat)
  | requestResponseInformation (v : Nat)
  | requestProblemInformation (v : Bool)
  | userProperty (key value : List Nat)
  | authenticationMethod (v : List Nat)
  | authenticationData (v : List Nat)

/-- `ConnectProperty::size`: one identifier byte plus the payload size. -/
def connectPropertySize : ConnectProperty → Nat
  | .sessionExpiryInterval _ => 1 + 4
  | .receiveMaximum _ => 1 + 2
  | .maximumPacketSize _ => 1 + 4
  | .topicAliasMaximum _ => 1 + 2
  | .requestResponseInformation _ => 1 + 1
  | .requestProblemInformation _ => 1 + 1
  | .userProperty key value => 1 + (encodedStrSize key + encodedStrSize value)
  | .authenticationMethod v => 1 + encodedStrSize v
  | .authenticationData v => 1 + encodedStrSize v

/-- `ConnectProperty::write_to`: the identifier byte then the payload. -/
def connectPropertyWrite : ConnectProperty → List Nat
  | .sessionExpiryInterval v => 0x11 :: u32be v
  | .receiveMaximum v => 0x21 :: u16be v
  | .maximumPacketSize v => 0x27 :: u32be v
  | .topicAliasMaximum v => 0x22 :: u16be v
  | .requestResponseInformation v => [0x19, v % 256]
  | .requestProblemInformation v => [0x17, b2n v]
  | .userProperty key value => 0x26 :: (encodedStrWrite key ++ encodedStrWrite value)
  | .authenticationMethod v => 0x15 :: encodedStrWrite v
  | .authenticationData v => 0x16 :: binaryDataWrite v

/-- `WillProperty` (`src/protocol/v5/connect.rs`). -/
inductive WillProperty where
  | willDelay (v : Nat)
  | payloadFormatIndicator (v : Nat)
  | messageExpiryInterval (v : Nat)
  | contentType (v : List Nat)
  | responseTopic (v : List Nat)
  | correlationData (v : List Nat)
  | userProperty (key value : List Nat)

/-- `WillProperty::size`.  Note the source computes the `CorrelationData`
payload size as `v.size()` on the `&[u8]` slice (the sum of the byte
sizes, i.e. `v.len()`), *not* as `BinaryData(v).size()`. -/
def willPropertySize : WillProperty → Nat
  | .willDelay _ => 1 + 4
  | .payloadFormatIndicator _ => 1 + 1
  | .messageExpiryInterval _ => 1 + 4
  | .contentType v => 1 + encodedStrSize v
  | .responseTopic v => 1 + encodedStrSize v
  | .correlationData v => 1 + v.length
  | .userProperty key value => 1 + (encodedStrSize key + encodedStrSize value)

/-- `WillProperty::write_to`: the `CorrelationData` payload *is* written
through `BinaryData` (with its 2-byte length prefix). -/
def willPropertyWrite : WillProperty → List Nat
  | .willDelay v => 0x18 :: u32be v
  | .payloadFormatIndicator v => [0x01, v % 256]
  | .messageExpiryInterval v => 0x02 :: u32be v
  | .contentType v => 0x03 :: encodedStrWrite v
  | .responseTopic v => 0x08 :: encodedStrWrite v
  | .correlationData v => 0x09 :: binaryDataWrite v
  | .userProperty key value => 0x26 :: (encodedStrWrite key ++ encodedStrWrite value)

/-- `Properties::size` (`src/protocol/v5/property.rs`):
`VariableByteInteger::try_from(s).ok().size() + s` where `s` is the summed
property sizes; a failed conversion contributes `Option::size` = 0. -/
def propertiesSize (sizes : List Nat) : Nat :=
  let s := sizes.sum
  (if s ≤ 0xfffffff then vbiSize (vbiEncArr s) else 0) + s

/-- `Properties::write_to`: the varint of the summed sizes (its `unwrap`
panics — `none` — above `0xfffffff`), then every property in order. -/
def propertiesWrite (sizes : List Nat) (payload : List Nat) : Option (List Nat) :=
  let s := sizes.sum
  if s ≤ 0xfffffff then some (vbiSlice (vbiEncArr s) ++ payload) else none

/-- `Will` (`src/protocol/v5/connect.rs`). -/
structure Will where
  retain : Bool
  qos : QoS
  properties : List WillProperty
  topic : List Nat
  payload : List Nat

/-- `Will::size`. -/
def willSize (w : Will) : Nat :=
  propertiesSize (w.properties.map willPropertySize)
    + encodedStrSize w.topic + encodedStrSize w.payload

/-- `Will::write_to`. -/
def willWrite (w : Will) : Option (List Nat) :=
  (propertiesWrite (w.properties.map willPropertySize)
      (w.properties.flatMap willPropertyWrite)).map
    fun props => props ++ encodedStrWrite w.topic ++ binaryDataWrite w.payload

/-- `Connect` (`src/protocol/v5/connect.rs`).  Strings are byte lists. -/
structure Connect where
  client_id : List Nat
  keep_alive : Nat
  clean_start : Bool
  will : Option Will
  username : Option (List Nat)
  password : Option (List Nat)
  properties : List ConnectProperty

/-- `Connect::size`. -/
def connectSize (c : Connect) : Nat :=
  10 + propertiesSize (c.properties.map connectPropertySize)
    + encodedStrSize c.client_id
    + (match c.will with | none => 0 | some w => willSize w)
    + (match c.username with | none => 0 | some u => encodedStrSize u)
    + (match c.password with | none => 0 | some p => encodedStrSize p)

/-- The connect-flags byte assembled in `Connect::write_to`. -/
def connectFlags (c : Connect) : Nat :=
  (b2n c.username.isSome <<< 7) ||| (b2n c.password.isSome <<< 6)
    ||| (b2n (c.will.elim false (·.retain)) <<< 5)
    ||| (qosToU8 (c.will.elim .atMostOnce (·.qos)) <<< 3)
    ||| (b2n c.will.isSome <<< 2) ||| (b2n c.clean_start <<< 1)

/-- `Connect::write_to`: protocol name, version `5`, connect flags,
keep-alive, properties, then the payload (client id, will, username,
password). -/
def connectWrite (c : Connect) : Option (List Nat) :=
  (propertiesWrite (c.properties.map connectPropertySize)
      (c.properties.flatMap connectPropertyWrite)).bind fun props =>
  (match c.will with
   | none => some []
   | some w => willWrite w).map fun wl =>
    encodedStrWrite [77, 81, 84, 84] ++ [5] ++ [connectFlags c]
      ++ u16be c.keep_alive ++ props ++ encodedStrWrite c.client_id ++ wl
      ++ (match c.username with | none => [] | some u => encodedStrWrite u)
      ++ (match c.password with | none => [] | some p => encodedStrWrite p)

/-- `Publish` (`src/protocol/v5/publish.rs`). -/
structure Publish where
  dup : Bool
  qos : QoS
  retain : Bool
  identifier : Option Nat
  topic : List Nat
  payload : List Nat
deriving DecidableEq, Repr

/-- `Publish::flags` (`Packet::flags` override):
`dup << 3 | qos << 1 | retain`. -/
def publishFlags (p : Publish) : Nat :=
  (b2n p.dup <<< 3) ||| (qosToU8 p.qos <<< 1) ||| b2n p.retain

/-- `Publish::size`. -/
def publishSize (p : Publish) : Nat :=
  encodedStrSize p.topic
    + (match p.identifier with | none => 0 | some _ => 2)
    + vbiSize (vbiEncArr 0) + p.payload.length

/-- `Publish::write_to`: topic, optional identifier, an empty property
block (varint `0`), then the raw payload. -/
def publishWrite (p : Publish) : List Nat :=
  encodedStrWrite p.topic
    ++ (match p.identifier with | none => [] | some i => u16be i)
    ++ vbiSlice (vbiEncArr 0) ++ p.payload

/-- `Subscribe` (`src/protocol/v5/mod.rs`): a packet identifier and a
list of `(topic, qos, no_local)` entries. -/
structure Subscribe where
  identifier : Nat
  topics : List (List Nat × Nat × Bool)

/-- `Subscribe::size`. -/
def subscribeSize (s : Subscribe) : Nat :=
  2 + 1 + (s.topics.map fun t => encodedStrSize t.1 + 1).sum

/-- `Subscribe::write_to`: identifier, empty property block, then each
topic as an `EncodedStr` followed by the options byte
`(qos & 0b11) | no_local << 2`. -/
def subscribeWrite (s : Subscribe) : List Nat :=
  u16be s.identifier ++ vbiSlice (vbiEncArr 0)
    ++ s.topics.flatMap fun t =>
        encodedStrWrite t.1 ++ [(t.2.1 &&& 3) ||| (b2n t.2.2 <<< 2)]

/-- `FixedHeader::new`: the start byte `(packet << 4) | (flags & 0b1111)`
and the size converted with `try_into().unwrap()` — a panic (`none`) when
the size exceeds `0x0FFFFFFF`. -/
def fixedHeaderNew (ty flags size : Nat) : Option (Nat × List Nat) :=
  if size > 0xfffffff then none
  else some ((ty <<< 4) ||| (flags &&& 0xf), vbiEncArr size)

/-- `Connection::send` (`src/client/mod.rs`): write the fixed header
built from `(T::TYPE, packet.flags(), packet.size())`, then the body.
`none` models a panic in `FixedHeader::new` or in the body writer. -/
def sendWire (ty flags size : Nat) (body : Option (List Nat)) : Option (List Nat) :=
  (fixedHeaderNew ty flags size).bind fun fh =>
    body.map fun b => (fh.1 :: vbiSlice fh.2) ++ b

/-- The `Connect` scenario of the spec: sent through `Connection::send`
with `Connect::TYPE = 1` and the default `flags() = 0`. -/
def connectSend (c : Connect) : Option (List Nat) :=
  sendWire 1 0 (connectSize c) (connectWrite c)

/-! ## Parsers

Each parser takes the remaining input slice (what the Rust `Cursor`
calls `rem()`) and returns the number of bytes it consumed together
with the parsed value, `notEnoughData`, or a `PacketError`. -/

/-- `PacketError` (`src/protocol/mod.rs`). -/
inductive PacketError where
  | invalidType (expected actual : Nat)
  | protocolError
deriving DecidableEq, Repr

/-- `ParseError`/`ParseResult`: success carries the consumed length. -/
inductive ParseRes (α : Type) where
  | ok (len : Nat) (val : α)
  | notEnoughData
  | error (e : PacketError)
deriving DecidableEq, Repr

/-- A UTF-8 continuation byte (`0x80..=0xBF`). -/
def utf8Cont (b : Nat) : Bool := 128 ≤ b && b ≤ 191

/-- Validity of a byte sequence under `core::str::from_utf8`
(well-formed UTF-8: no overlong forms, no surrogates, max `U+10FFFF`). -/
def utf8Valid : List Nat → Bool
  | [] => true
  | b :: rest =>
    if b < 0x80 then utf8Valid rest
    else if 0xC2 ≤ b && b ≤ 0xDF then
      match rest with
      | c1 :: r => utf8Cont c1 && utf8Valid r
      | [] => false
    else if b = 0xE0 then
      match rest with
      | c1 :: c2 :: r => (0xA0 ≤ c1 && c1 ≤ 0xBF) && utf8Cont c2 && utf8Valid r
      | _ => false
    else if (0xE1 ≤ b && b ≤ 0xEC) || (0xEE ≤ b && b ≤ 0xEF) then
      match rest with
      | c1 :: c2 :: r => utf8Cont c1 && utf8Cont c2 && utf8Valid r
      | _ => false
    else if b = 0xED then
      match rest with
      | c1 :: c2 :: r => (0x80 ≤ c1 && c1 ≤ 0x9F) && utf8Cont c2 && utf8Valid r
      | _ => false
    else if b = 0xF0 then
      match rest with
      | c1 :: c2 :: c3 :: r =>
        (0x90 ≤ c1 && c1 ≤ 0xBF) && utf8Cont c2 && utf8Cont c3 && utf8Valid r
      | _ => false
    else if 0xF1 ≤ b && b ≤ 0xF3 then
      match rest with
      | c1 :: c2 :: c3 :: r => utf8Cont c1 && utf8Cont c2 && utf8Cont c3 && utf8Valid r
      | _ => false
    else if b = 0xF4 then
      match rest with
      | c1 :: c2 :: c3 :: r =>
        (0x80 ≤ c1 && c1 ≤ 0x8F) && utf8Cont c2 && utf8Cont c3 && utf8Valid r
      | _ => false
    else false

/-- `Cursor::read_u16_be` on the remaining slice. -/
def readU16be (data : List Nat) : ParseRes Nat :=
  match data[0]?, data[1]? with
  | some msb, some lsb => .ok 2 (msb * 256 + lsb)
  | _, _ => .notEnoughData

/-- `BinaryData::parse`: a big-endian `u16` length then that many bytes. -/
def binaryDataParse (data : List Nat) : ParseRes (List Nat) :=
  match data[0]?, data[1]? with
  | some msb, some lsb =>
    let len := msb * 256 + lsb
    if (data.drop 2).length < len then .notEnoughData
    else .ok (2 + len) ((data.drop 2).take len)
  | _, _ => .notEnoughData

/-- `EncodedStr::parse`: `BinaryData::parse` plus the `from_utf8` check
(a UTF-8 violation is `PacketError::ProtocolError`). -/
def encodedStrParse (data : List Nat) : ParseRes (List Nat) :=
  match binaryDataParse data with
  | .ok len payload =>
    if utf8Valid payload then .ok len payload else .error .protocolError
  | .notEnoughData => .notEnoughData
  | .error e => .error e

/-- `FixedHeader::parse`: the start byte and the remaining-length varint
(whose `VariableByteIntegerInvalid` is mapped to `ProtocolError`). -/
def fixedHeaderParse (data : List Nat) : ParseRes (Nat × List Nat) :=
  match data[0]? with
  | none => .notEnoughData
  | some start =>
    match vbiParse (data.drop 1) with
    | .notEnoughData => .notEnoughData
    | .invalid => .error .protocolError
    | .ok len arr => .ok (1 + len) (start, arr)

/-- `usize` subtraction (wrapping in release builds; a debug build would
panic on underflow). -/
def usizeSub (a b : Nat) : Nat := (a + 18446744073709551616 - b) % 18446744073709551616

/-- `Publish::parse` (`src/protocol/v5/publish.rs`): fixed header with a
type check, flag split, topic, identifier iff QoS > 0, property block
skipped by length, then a payload of
`remaining_length - bytes_consumed_since_fixed_header_end` bytes. -/
def publishParse (data : List Nat) : ParseRes Publish :=
  match fixedHeaderParse data with
  | .notEnoughData => .notEnoughData
  | .error e => .error e
  | .ok hlen fh =>
    let start := fh.1
    if start >>> 4 ≠ 3 then .error (.invalidType 3 (start >>> 4))
    else
      let flags := start &&& 15
      match qosTryFrom ((flags >>> 1) &&& 3) with
      | none => .error .protocolError
      | some qos =>
        let packetLength := vbiAsU32 fh.2
        match encodedStrParse (data.drop hlen) with
        | .notEnoughData => .notEnoughData
        | .error e => .error e
        | .ok tlen topic =>
          let idRes : ParseRes (Option Nat) :=
            match qos with
            | .atMostOnce => .ok 0 none
            | _ =>
              match readU16be (data.drop (hlen + tlen)) with
              | .ok l i => .ok l (some i)
              | .notEnoughData => .notEnoughData
              | .error e => .error e
          match idRes with
          | .notEnoughData => .notEnoughData
          | .error e => .error e
          | .ok ilen identifier =>
            match vbiParse (data.drop (hlen + tlen + ilen)) with
            | .notEnoughData => .notEnoughData
            | .invalid => .error .protocolError
            | .ok plen props =>
              let pos := hlen + tlen + ilen + plen
              let skip := vbiAsU32 props
              if (data.drop pos).length < skip then .notEnoughData
              else
                let pos := pos + skip
                let bodyLen := usizeSub packetLength (pos - hlen)
                if (data.drop pos).length < bodyLen then .notEnoughData
                else
                  .ok (pos + bodyLen)
                    { dup := flags &&& 8 > 0
                      qos := qos
                      retain := flags &&& 1 > 0
                      identifier := identifier
                      topic := topic
                      payload := (data.drop pos).take bodyLen }

example :
    publishParse [0x30, 0x0d, 0x00, 0x05, 0x74, 0x6f, 0x70, 0x69, 0x63, 0x00,
      0x68, 0x65, 0x6c, 0x6c, 0x6f]
      = .ok 15
          { dup := false, qos := .atMostOnce, retain := false, identifier := none
            topic := [0x74, 0x6f, 0x70, 0x69, 0x63]
            payload := [0x68, 0x65, 0x6c, 0x6c, 0x6f] } := by decide

example :
    publishParse [0x30, 0x0e, 0x00, 0x05, 0x74, 0x6f, 0x70, 0x69, 0x63, 0x00,
      0x68, 0x65, 0x6c, 0x6c, 0x6f] = .notEnoughData := by decide

/-- `ConnAckReason` (`src/protocol/v5/connect.rs`): the closed set of 22
documented CONNACK reason codes. -/
inductive ConnAckReason where
  | success
  | unspecifiedError
  | malformedPacket
  | protocolError
  | implementationSpecificError
  | unsupportedProtocolVersion
  | clientIdentifierNotValid
  | badUserNameOrPassword
  | notAuthorized
  | serverUnavailable
  | serverBusy
  | banned
  | badAuthenticationMethod
  | topicNameInvalid
  | packetTooLarge
  | quotaExceeded
  | payloadFormatInvalid
  | retainNotSupported
  | qosNotSupported
  | useAnotherServer
  | serverMoved
  | connectionRateExceeded
deriving DecidableEq, Repr, Fintype

/-- The `repr(u8)` discriminant of each `ConnAckReason`. -/
def connAckReasonByte : ConnAckReason → Nat
  | .success => 0x00
  | .unspecifiedError => 0x80
  | .malformedPacket => 0x81
  | .protocolError => 0x82
  | .implementationSpecificError => 0x83
  | .unsupportedProtocolVersion => 0x84
  | .clientIdentifierNotValid => 0x85
  | .badUserNameOrPassword => 0x86
  | .notAuthorized => 0x87
  | .serverUnavailable => 0x88
  | .serverBusy => 0x89
  | .banned => 0x8a
  | .badAuthenticationMethod => 0x8c
  | .topicNameInvalid => 0x90
  | .packetTooLarge => 0x95
  | .quotaExceeded => 0x97
  | .payloadFormatInvalid => 0x99
  | .retainNotSupported => 0x9a
  | .qosNotSupported => 0x9b
  | .useAnotherServer => 0x9c
  | .serverMoved => 0x9d
  | .connectionRateExceeded => 0x9f

/-- `impl Parse for ConnAckReason`: one byte, matched against the 22
documented codes; anything else is `PacketError::ProtocolError`. -/
def connAckReasonParse (data : List Nat) : ParseRes ConnAckReason :=
  match data[0]? with
  | none => .notEnoughData
  | some b =>
    match b with
    | 0x00 => .ok 1 .success
    | 0x80 => .ok 1 .unspecifiedError
    | 0x81 => .ok 1 .malformedPacket
    | 0x82 => .ok 1 .protocolError
    | 0x83 => .ok 1 .implementationSpecificError
    | 0x84 => .ok 1 .unsupportedProtocolVersion
    | 0x85 => .ok 1 .clientIdentifierNotValid
    | 0x86 => .ok 1 .badUserNameOrPassword
    | 0x87 => .ok 1 .notAuthorized
    | 0x88 => .ok 1 .serverUnavailable
    | 0x89 => .ok 1 .serverBusy
    | 0x8a => .ok 1 .banned
    | 0x8c => .ok 1 .badAuthenticationMethod
    | 0x90 => .ok 1 .topicNameInvalid
    | 0x95 => .ok 1 .packetTooLarge
    | 0x97 => .ok 1 .quotaExceeded
    | 0x99 => .ok 1 .payloadFormatInvalid
    | 0x9a => .ok 1 .retainNotSupported
    | 0x9b => .ok 1 .qosNotSupported
    | 0x9c => .ok 1 .useAnotherServer
    | 0x9d => .ok 1 .serverMoved
    | 0x9f => .ok 1 .connectionRateExceeded
    | _ => .error .protocolError

/-! ## Concrete wire scenarios and per-packet theorems -/

/-- C2: sending (fixed header plus body, as `Connection::send` does) the
CONNECT with client id "miniqtt", keep-alive `0x42`, clean start, no
will, username "aaa", password "bbb" and no properties produces exactly
the expected wire bytes. -/
theorem connect_send_bytes :
    connectSend
        { client_id := [0x6d, 0x69, 0x6e, 0x69, 0x71, 0x74, 0x74]
          keep_alive := 0x42
          clean_start := true
          will := none
          username := some [0x61, 0x61, 0x61]
          password := some [0x62, 0x62, 0x62]
          properties := [] }
      = some [0x10, 0x1e, 0x00, 0x04, 0x4d, 0x51, 0x54, 0x54, 0x05, 0xc2, 0x00, 0x42,
          0x00, 0x00, 0x07, 0x6d, 0x69, 0x6e, 0x69, 0x71, 0x74, 0x74,
          0x00, 0x03, 0x61, 0x61, 0x61, 0x00, 0x03, 0x62, 0x62, 0x62] := by decide

/-- C10: for every packet size above `0x0FFFFFFF`, `FixedHeader::new`
panics on the unwrapped `VariableByteInteger` conversion (modelled as
`none`), so `Connection::send` panics as well instead of returning an
error. -/
theorem fixed_header_oversize_panics (ty flags n : Nat) (body : Option (List Nat))
    (h : n > 0xfffffff) :
    fixedHeaderNew ty flags n = none ∧ sendWire ty flags n body = none := by
  refine ⟨?_, ?_⟩ <;> simp [fixedHeaderNew, sendWire, h]

/-- Witness for `fixed_header_oversize_panics` at size `0x10000000`. -/
theorem fixed_header_oversize_panics_witness :
    0x10000000 > 0xfffffff ∧
      (fixedHeaderNew 3 0 0x10000000 = none ∧ sendWire 3 0 0x10000000 (some []) = none) :=
  ⟨by norm_num, fixed_header_oversize_panics 3 0 0x10000000 (some []) (by norm_num)⟩

/-- A QoS other than `AtMostOnce` has a positive numeric value. -/
theorem qosToU8_pos {q : QoS} (h : ¬ q = QoS.atMostOnce) : 0 < qosToU8 q := by
  cases q
  · exact absurd rfl h
  · decide
  · decide

set_option maxRecDepth 100000 in
/-- C7: parsing a single byte as a `ConnAckReason` succeeds exactly for
the 22 documented reason-code bytes, yields a reason whose numeric value
is that byte, and is `PacketError::ProtocolError` otherwise. -/
theorem connack_reason_byte (b : Nat) (h : b < 256) :
    ((∃ r, connAckReasonParse [b] = .ok 1 r)
        ↔ b ∈ [0x00, 0x80, 0x81, 0x82, 0x83, 0x84, 0x85, 0x86, 0x87, 0x88, 0x89, 0x8a,
            0x8c, 0x90, 0x95, 0x97, 0x99, 0x9a, 0x9b, 0x9c, 0x9d, 0x9f]) ∧
    (∀ r, connAckReasonParse [b] = .ok 1 r → connAckReasonByte r = b) ∧
    (b ∉ [0x00, 0x80, 0x81, 0x82, 0x83, 0x84, 0x85, 0x86, 0x87, 0x88, 0x89, 0x8a,
        0x8c, 0x90, 0x95, 0x97, 0x99, 0x9a, 0x9b, 0x9c, 0x9d, 0x9f]
      → connAckReasonParse [b] = .error .protocolError) := by
  have key : ∀ x : Fin 256,
      ((∃ r, connAckReasonParse [x.val] = .ok 1 r)
          ↔ x.val ∈ [0x00, 0x80, 0x81, 0x82, 0x83, 0x84, 0x85, 0x86, 0x87, 0x88, 0x89,
              0x8a, 0x8c, 0x90, 0x95, 0x97, 0x99, 0x9a, 0x9b, 0x9c, 0x9d, 0x9f]) ∧
      (∀ r, connAckReasonParse [x.val] = .ok 1 r → connAckReasonByte r = x.val) ∧
      (x.val ∉ [0x00, 0x80, 0x81, 0x82, 0x83, 0x84, 0x85, 0x86, 0x87, 0x88, 0x89, 0x8a,
          0x8c, 0x90, 0x95, 0x97, 0x99, 0x9a, 0x9b, 0x9c, 0x9d, 0x9f]
        → connAckReasonParse [x.val] = .error .protocolError) := by decide
  exact key ⟨b, h⟩

/-- Witness for `connack_reason_byte` at the byte `0x87` (NotAuthorized). -/
theorem connack_reason_byte_witness :
    (0x87 : Nat) < 256 ∧
      (((∃ r, connAckReasonParse [0x87] = .ok 1 r)
          ↔ (0x87 : Nat) ∈ [0x00, 0x80, 0x81, 0x82, 0x83, 0x84, 0x85, 0x86, 0x87, 0x88,
              0x89, 0x8a, 0x8c, 0x90, 0x95, 0x97, 0x99, 0x9a, 0x9b, 0x9c, 0x9d, 0x9f]) ∧
      (∀ r, connAckReasonParse [0x87] = .ok 1 r → connAckReasonByte r = 0x87) ∧
      ((0x87 : Nat) ∉ [0x00, 0x80, 0x81, 0x82, 0x83, 0x84, 0x85, 0x86, 0x87, 0x88, 0x89,
          0x8a, 0x8c, 0x90, 0x95, 0x97, 0x99, 0x9a, 0x9b, 0x9c, 0x9d, 0x9f]
        → connAckReasonParse [0x87] = .error .protocolError)) :=
  ⟨by norm_num, connack_reason_byte 0x87 (by norm_num)⟩

/-- C5 counterexample: the spec scenario bytes
`30 0e 00 05 74 6f 70 69 63 00 68 65 6c 6c 6f` do *not* parse as a
PUBLISH packet — the remaining-length byte `0x0e` (14) overstates the
13-byte body, so `Publish::parse` asks for more data. -/
theorem publish_spec_scenario_not_ok :
    publishParse [0x30, 0x0e, 0x00, 0x05, 0x74, 0x6f, 0x70, 0x69, 0x63, 0x00,
        0x68, 0x65, 0x6c, 0x6c, 0x6f]
      = .notEnoughData := by decide

/-- C5 (amended): with the remaining length corrected to `0x0d`, the
PUBLISH decodes to topic "topic", payload "hello", QoS 0, no dup, no
retain and no identifier; and for every successfully parsed PUBLISH the
packet identifier is present iff its QoS is greater than 0. -/
theorem publish_decode_and_identifier_iff :
    publishParse [0x30, 0x0d, 0x00, 0x05, 0x74, 0x6f, 0x70, 0x69, 0x63, 0x00,
          0x68, 0x65, 0x6c, 0x6c, 0x6f]
        = .ok 15
            { dup := false, qos := .atMostOnce, retain := false, identifier := none
              topic := [0x74, 0x6f, 0x70, 0x69, 0x63]
              payload := [0x68, 0x65, 0x6c, 0x6c, 0x6f] } ∧
    (∀ (data : List Nat) (len : Nat) (p : Publish),
      publishParse data = .ok len p → (p.identifier.isSome ↔ qosToU8 p.qos > 0)) := by
  refine ⟨by decide, ?_⟩
  intro data len p h
  simp only [publishParse] at h
  repeat' split at h
  all_goals try (exact ParseRes.noConfusion h)
  injection h with h1 h2
  subst h2
  rename_i idres xv vlen varr hvbi hskip hbody
  split at idres
  all_goals try split at idres
  all_goals first
    | (exact ParseRes.noConfusion idres)
    | (injection idres with hid1 hid2; subst hid2; simp [qosToU8];
        try exact qosToU8_pos (by assumption))

/-- Witness for `publish_decode_and_identifier_iff`: its general part
applied to the concrete decode of its first part. -/
theorem publish_decode_and_identifier_iff_witness :
    (Publish.identifier
        { dup := false, qos := .atMostOnce, retain := false, identifier := none
          topic := [0x74, 0x6f, 0x70, 0x69, 0x63]
          payload := [0x68, 0x65, 0x6c, 0x6c, 0x6f] }).isSome
      ↔ qosToU8
          (Publish.qos
            { dup := false, qos := .atMostOnce, retain := false, identifier := none
              topic := [0x74, 0x6f, 0x70, 0x69, 0x63]
              payload := [0x68, 0x65, 0x6c, 0x6c, 0x6f] }) > 0 :=
  publish_decode_and_identifier_iff.2 _ _ _ publish_decode_and_identifier_iff.1

/-- C9 fails on the code: a CONNECT whose will carries a
`CorrelationData` property sizes the property as `1 + len` but writes
`1 + 2 + len` bytes (the `BinaryData` length prefix is missing from
`WillProperty::size`), so `write_to` emits two more bytes than `size()`
— the remaining length in the fixed header under-reports the body. -/
theorem connect_correlation_data_size_mismatch :
    (connectWrite
        { client_id := [], keep_alive := 0, clean_start := true
          will := some
            { retain := false, qos := .atMostOnce
              properties := [.correlationData []], topic := [], payload := [] }
          username := none, password := none, properties := [] }).map List.length
        = some 21 ∧
    connectSize
        { client_id := [], keep_alive := 0, clean_start := true
          will := some
            { retain := false, qos := .atMostOnce
              properties := [.correlationData []], topic := [], payload := [] }
          username := none, password := none, properties := [] }
        = 19 := by decide

/-- C8 evaluated at a malformed PUBLISH: the packet `30 02 00 00 00`
declares a remaining length of 2 but topic + property block consume 3
bytes, so the `usize` subtraction `packet_length - consumed` underflows
(wrapping here; a debug build panics) and the parser reports
`NotEnoughData` — not an error — so the receive loop keeps reading. -/
theorem publish_length_underflow_not_error :
    publishParse [0x30, 0x02, 0x00, 0x00, 0x00] = .notEnoughData := by decide

/-! ## The receive path (`Connection::receive`, `src/client/mod.rs`)

The connection's receive state: the `rx_buffer` contents (with a flag
for whether the `Buffer` impl is resizable — `Vec<u8>` is, slices and
arrays are not), `size` and `position`.  The transport is modelled as a
list of chunks; one `read` call consumes one chunk and delivers at most
the free space's worth of bytes, an empty chunk (or an exhausted
stream) modelling a read that returns zero bytes. -/

structure RxState where
  buf : List Nat
  resizable : Bool
  size : Nat
  position : Option Nat

/-- `Connection::new`: fresh state over a caller-supplied buffer. -/
def connNew (buf : List Nat) (resizable : Bool) : RxState :=
  { buf := buf, resizable := resizable, size := 0, position := none }

/-- `Vec<u8>::try_resize`: extend by `(len * 2).clamp(32, 8192)` zeroed
bytes. -/
def bufResize (buf : List Nat) : List Nat :=
  buf ++ List.replicate (min (max (buf.length * 2) 32) 8192) 0

/-- The compaction done on entry to `receive` when `position` is set:
`copy_within(position..size, 0)` and `size -= position`. -/
def compactState (st : RxState) : RxState :=
  match st.position with
  | none => st
  | some p =>
    { st with
      buf := (st.buf.drop p).take (st.size - p) ++ st.buf.drop (st.size - p)
      size := st.size - p
      position := none }

/-- What `Connection::receive` can return; mirrors `client::Error`
(there is no `NotEnoughData` variant — the loop consumes it). A
transport-adapter error (`Error::Connection`) cannot arise from the
chunk-list transport model. -/
inductive RecvResult (α : Type) where
  | ok (v : α)
  | disconnected
  | protocol
  | insufficientBufferSize
deriving DecidableEq

/-- The `loop` in `Connection::receive`, fuelled (`none` = fuel ran
out): try to parse `buf[..size]`; on success record `position`; on a
parse error return `Protocol`; on `NotEnoughData` grow the buffer when
full (`InsufficientBufferSize` when growth is refused), otherwise read
into the free region — a zero-byte read returns `Disconnected`,
otherwise `size` grows by the bytes read and the loop repeats. -/
def receiveLoop {α : Type} (parse : List Nat → ParseRes α) :
    Nat → RxState → List (List Nat) → Option (RecvResult α × RxState × List (List Nat))
  | 0, _, _ => none
  | fuel + 1, st, stream =>
    match parse (st.buf.take st.size) with
    | .ok len v => some (.ok v, { st with position := some len }, stream)
    | .error _ => some (.protocol, st, stream)
    | .notEnoughData =>
      if st.buf.length ≤ st.size then
        if st.resizable then
          receiveLoop parse fuel { st with buf := bufResize st.buf } stream
        else
          some (.insufficientBufferSize, st, stream)
      else
        match stream with
        | [] => some (.disconnected, st, stream)
        | chunk :: rest =>
          if min chunk.length (st.buf.length - st.size) = 0 then
            some (.disconnected, st, rest)
          else
            receiveLoop parse fuel
              { st with
                buf := st.buf.take st.size
                        ++ chunk.take (min chunk.length (st.buf.length - st.size))
                        ++ st.buf.drop (st.size + min chunk.length (st.buf.length - st.size))
                size := st.size + min chunk.length (st.buf.length - st.size) } rest

/-- `Connection::receive`: compact, then run the loop. -/
def receive {α : Type} (parse : List Nat → ParseRes α) (fuel : Nat) (st : RxState)
    (stream : List (List Nat)) : Option (RecvResult α × RxState × List (List Nat)) :=
  receiveLoop parse fuel (compactState st) stream

/-- A parser that consumes no more bytes than it is given — every
`Cursor`-based parser of the crate satisfies this. -/
def ParserBounded {α : Type} (parse : List Nat → ParseRes α) : Prop :=
  ∀ data len v, parse data = .ok len v → len ≤ data.length

/-- The receive-buffer invariant: `position ≤ size ≤ capacity` (the
spec's `consumed ≤ filled ≤ capacity`). -/
def RxInv (st : RxState) : Prop :=
  (∀ p, st.position = some p → p ≤ st.size) ∧ st.size ≤ st.buf.length

/-- The connection states reachable through `new`, `send` (which writes
only to the transport and leaves the receive state untouched) and
`receive` with any bounded parser. -/
inductive ConnReachable : RxState → Prop where
  | new (buf : List Nat) (resizable : Bool) : ConnReachable (connNew buf resizable)
  | send (st : RxState) : ConnReachable st → ConnReachable st
  | recv {α : Type} (parse : List Nat → ParseRes α) (fuel : Nat) (st st' : RxState)
      (stream rest : List (List Nat)) (r : RecvResult α)
      (hb : ParserBounded parse) (h : ConnReachable st)
      (hrecv : receive parse fuel st stream = some (r, st', rest)) : ConnReachable st'

/-! ### Receive-loop invariants (C3, C4) -/

theorem receiveLoop_inv {α : Type} {parse : List Nat → ParseRes α} (hb : ParserBounded parse) :
    ∀ (fuel : Nat) (st : RxState) (stream : List (List Nat)) (r : RecvResult α)
      (st' : RxState) (rest : List (List Nat)),
      receiveLoop parse fuel st stream = some (r, st', rest) → RxInv st → RxInv st' := by
  intro fuel
  induction fuel with
  | zero => intro st stream r st' rest h _; simp [receiveLoop] at h
  | succ n ih =>
    intro st stream r st' rest h hinv
    obtain ⟨hpos, hsize⟩ := hinv
    rcases hpr : parse (st.buf.take st.size) with ⟨len, v⟩ | - | e
    · simp only [receiveLoop, hpr] at h
      simp only [Option.some.injEq, Prod.mk.injEq] at h
      obtain ⟨-, hst, -⟩ := h
      subst hst
      refine ⟨?_, hsize⟩
      intro p hp
      dsimp only at hp
      simp only [Option.some.injEq] at hp
      have hlen := hb _ _ _ hpr
      rw [List.length_take] at hlen
      dsimp only
      omega
    · simp only [receiveLoop, hpr] at h
      by_cases hfull : st.buf.length ≤ st.size
      · rw [if_pos hfull] at h
        by_cases hres : st.resizable
        · rw [if_pos hres] at h
          refine ih _ _ _ _ _ h ⟨hpos, ?_⟩
          simp only [bufResize, List.length_append, List.length_replicate]
          omega
        · rw [if_neg hres] at h
          simp only [Option.some.injEq, Prod.mk.injEq] at h
          obtain ⟨-, hst, -⟩ := h
          subst hst
          exact ⟨hpos, hsize⟩
      · rw [if_neg hfull] at h
        cases stream with
        | nil =>
          simp only [Option.some.injEq, Prod.mk.injEq] at h
          obtain ⟨-, hst, -⟩ := h
          subst hst
          exact ⟨hpos, hsize⟩
        | cons chunk rest2 =>
          dsimp only at h
          by_cases hr : min chunk.length (st.buf.length - st.size) = 0
          · rw [if_pos hr] at h
            simp only [Option.some.injEq, Prod.mk.injEq] at h
            obtain ⟨-, hst, -⟩ := h
            subst hst
            exact ⟨hpos, hsize⟩
          · rw [if_neg hr] at h
            refine ih _ _ _ _ _ h
              ⟨fun p hp => le_trans (hpos p hp) (Nat.le_add_right _ _), ?_⟩
            dsimp only
            simp only [List.length_append, List.length_take, List.length_drop]
            omega
    · simp only [receiveLoop, hpr] at h
      simp only [Option.some.injEq, Prod.mk.injEq] at h
      obtain ⟨-, hst, -⟩ := h
      subst hst
      exact ⟨hpos, hsize⟩

theorem compactState_inv (st : RxState) (h : RxInv st) : RxInv (compactState st) := by
  obtain ⟨hpos, hsize⟩ := h
  rcases hp : st.position with - | p
  · simpa [compactState, hp] using ⟨hpos, hsize⟩
  · have hps : p ≤ st.size := hpos p hp
    refine ⟨?_, ?_⟩
    · intro q hq
      simp [compactState, hp] at hq
    · simp only [compactState, hp, List.length_append, List.length_take, List.length_drop]
      omega

theorem receive_inv {α : Type} {parse : List Nat → ParseRes α} (hb : ParserBounded parse)
    {fuel : Nat} {st st' : RxState} {stream rest : List (List Nat)} {r : RecvResult α}
    (h : receive parse fuel st stream = some (r, st', rest)) (hinv : RxInv st) : RxInv st' :=
  receiveLoop_inv hb fuel (compactState st) stream r st' rest h (compactState_inv st hinv)

theorem conn_reachable_inv : ∀ st : RxState, ConnReachable st → RxInv st := by
  intro st h
  induction h with
  | new buf resizable => exact ⟨by simp [connNew], by simp [connNew]⟩
  | send st h ih => exact ih
  | recv parse fuel st st' stream rest r hb h hrecv ih => exact receive_inv hb hrecv ih

/-- C4: every connection state reachable through `new`, `send` and
`receive` (with any bounded parser) satisfies `position ≤ size ≤
capacity`; and with `position = some p` set (and the invariant holding),
the compaction done on entry to `receive` moves the bytes `[p..size)` to
offset 0 and subtracts `p` from `size`, so the next parse attempt — in
particular a second successful receive — reads its packet starting at
buffer offset 0. -/
theorem receive_buffer_invariant :
    (∀ st : RxState, ConnReachable st →
      (∀ p, st.position = some p → p ≤ st.size) ∧ st.size ≤ st.buf.length) ∧
    (∀ (st : RxState) (p : Nat), st.position = some p → p ≤ st.size →
      st.size ≤ st.buf.length →
      (compactState st).size = st.size - p ∧
      (compactState st).position = none ∧
      (compactState st).buf.take ((compactState st).size) = (st.buf.take st.size).drop p ∧
      ∀ (α : Type) (parse : List Nat → ParseRes α) (fuel : Nat) (stream : List (List Nat)),
        receive parse fuel st stream = receiveLoop parse fuel (compactState st) stream) := by
  refine ⟨conn_reachable_inv, ?_⟩
  intro st p hp hps hsl
  refine ⟨by simp [compactState, hp], by simp [compactState, hp], ?_,
    fun α parse fuel stream => rfl⟩
  simp only [compactState, hp]
  rw [List.drop_take]
  exact List.take_left' (by simp only [List.length_take, List.length_drop]; omega)

/-- Witness for `receive_buffer_invariant`: the invariant at the freshly
constructed connection (reachable via `new`), and the compaction facts
at the state `{buf := [7, 8, 9], size := 3, position := some 1}`. -/
theorem receive_buffer_invariant_witness :
    ((∀ p, (connNew [0, 0] false).position = some p → p ≤ (connNew [0, 0] false).size) ∧
      (connNew [0, 0] false).size ≤ (connNew [0, 0] false).buf.length) ∧
    ((compactState ⟨[7, 8, 9], false, 3, some 1⟩).size = 3 - 1 ∧
      (compactState ⟨[7, 8, 9], false, 3, some 1⟩).position = none ∧
      (compactState ⟨[7, 8, 9], false, 3, some 1⟩).buf.take
          ((compactState ⟨[7, 8, 9], false, 3, some 1⟩).size)
        = (([7, 8, 9] : List Nat).take 3).drop 1 ∧
      ∀ (α : Type) (parse : List Nat → ParseRes α) (fuel : Nat) (stream : List (List Nat)),
        receive parse fuel ⟨[7, 8, 9], false, 3, some 1⟩ stream
          = receiveLoop parse fuel (compactState ⟨[7, 8, 9], false, 3, some 1⟩) stream) :=
  ⟨receive_buffer_invariant.1 _ (ConnReachable.new [0, 0] false),
   receive_buffer_invariant.2 ⟨[7, 8, 9], false, 3, some 1⟩ 1 rfl (by norm_num) (by norm_num)⟩

/-- C3: error routing in the `Connection::receive` loop: a read
delivering zero bytes returns `Disconnected`; a parser `Error` returns
`Protocol`; `NotEnoughData` with a full buffer whose growth is refused
returns `InsufficientBufferSize`; and `NotEnoughData` with free space
and a non-empty read makes the loop continue with the newly read bytes —
`NotEnoughData` itself is never surfaced (the result type, mirroring
`client::Error`, cannot express it). -/
theorem receive_error_routing :
    (∀ (α : Type) (parse : List Nat → ParseRes α) (fuel : Nat) (st : RxState)
        (rest : List (List Nat)),
      parse (st.buf.take st.size) = .notEnoughData → st.size < st.buf.length →
      receiveLoop parse (fuel + 1) st ([] :: rest) = some (.disconnected, st, rest)) ∧
    (∀ (α : Type) (parse : List Nat → ParseRes α) (fuel : Nat) (st : RxState)
        (stream : List (List Nat)) (e : PacketError),
      parse (st.buf.take st.size) = .error e →
      receiveLoop parse (fuel + 1) st stream = some (.protocol, st, stream)) ∧
    (∀ (α : Type) (parse : List Nat → ParseRes α) (fuel : Nat) (st : RxState)
        (stream : List (List Nat)),
      parse (st.buf.take st.size) = .notEnoughData → st.buf.length ≤ st.size →
      st.resizable = false →
      receiveLoop parse (fuel + 1) st stream = some (.insufficientBufferSize, st, stream)) ∧
    (∀ (α : Type) (parse : List Nat → ParseRes α) (fuel : Nat) (st : RxState)
        (chunk : List Nat) (rest : List (List Nat)),
      parse (st.buf.take st.size) = .notEnoughData → st.size < st.buf.length →
      chunk ≠ [] →
      receiveLoop parse (fuel + 1) st (chunk :: rest)
        = receiveLoop parse fuel
            { st with
              buf := st.buf.take st.size
                      ++ chunk.take (min chunk.length (st.buf.length - st.size))
                      ++ st.buf.drop (st.size + min chunk.length (st.buf.length - st.size))
              size := st.size + min chunk.length (st.buf.length - st.size) } rest) := by
  refine ⟨?_, ?_, ?_, ?_⟩
  · intro α parse fuel st rest hpr hfree
    simp only [receiveLoop, hpr]
    rw [if_neg (not_le.mpr hfree)]
    simp
  · intro α parse fuel st stream e hpr
    simp only [receiveLoop, hpr]
  · intro α parse fuel st stream hpr hfull hres
    simp only [receiveLoop, hpr]
    rw [if_pos hfull, hres]
    simp
  · intro α parse fuel st chunk rest hpr hfree hchunk
    have hlen : 0 < chunk.length := List.length_pos.mpr hchunk
    simp only [receiveLoop, hpr]
    rw [if_neg (not_le.mpr hfree)]
    rw [if_neg (by omega)]

/-- Witness for `receive_error_routing`: each conjunct applied to the
`ConnAckReason` parser at a concrete connection state. -/
theorem receive_error_routing_witness :
    (receiveLoop connAckReasonParse (0 + 1) ⟨[0], false, 0, none⟩ [[]]
        = some (.disconnected, ⟨[0], false, 0, none⟩, [])) ∧
    (receiveLoop connAckReasonParse (0 + 1) ⟨[1], false, 1, none⟩ []
        = some (.protocol, ⟨[1], false, 1, none⟩, [])) ∧
    (receiveLoop connAckReasonParse (0 + 1) ⟨[], false, 0, none⟩ []
        = some (.insufficientBufferSize, ⟨[], false, 0, none⟩, [])) ∧
    (receiveLoop connAckReasonParse (0 + 1) ⟨[0], false, 0, none⟩ [[0x87]]
        = receiveLoop connAckReasonParse 0 ⟨[0x87], false, 1, none⟩ []) :=
  ⟨receive_error_routing.1 ConnAckReason connAckReasonParse 0 ⟨[0], false, 0, none⟩ []
      (by decide) (by decide),
   receive_error_routing.2.1 ConnAckReason connAckReasonParse 0 ⟨[1], false, 1, none⟩ []
      .protocolError (by decide),
   receive_error_routing.2.2.1 ConnAckReason connAckReasonParse 0 ⟨[], false, 0, none⟩ []
      (by decide) (by decide) (by decide),
   receive_error_routing.2.2.2 ConnAckReason connAckReasonParse 0 ⟨[0], false, 0, none⟩
      [0x87] [] (by decide) (by decide) (by decide)⟩

/-- Witness for `vbi_roundtrip` at `n = 200_000_000`. -/
theorem vbi_roundtrip_witness :
    (200000000 : Nat) ≤ 0xfffffff ∧
      (vbiEncode 200000000 = some (vbiEncArr 200000000) ∧
       vbiParse (vbiSlice (vbiEncArr 200000000))
         = .ok (vbiSize (vbiEncArr 200000000)) (vbiEncArr 200000000) ∧
       vbiAsU32 (vbiEncArr 200000000) = 200000000 ∧
       vbiSize (vbiEncArr 200000000)
         = (if (200000000 : Nat) < 128 then 1 else if (200000000 : Nat) < 16384 then 2
            else if (200000000 : Nat) < 2097152 then 3 else 4)) :=
  ⟨by norm_num, vbi_roundtrip 200000000 (by norm_num)⟩

/-! ## The `TopicFilter`-based SUBSCRIBE encoder (C6)

`Client::subscribe` (`src/client/mod.rs`) builds a `v5::Subscribe` from
`TopicFilter` values with fields `name`, `qos`, `no_local`,
`retain_as_published` and `retain`, but no revision of `TopicFilter` or
of the `Subscribe` encoder consuming it is present in the sources (the
`v5/mod.rs` revision that is present uses `(topic, qos, no_local)`
tuples).  The missing pieces are modelled from the spec below. -/

/-- Modelled from the spec: `RetainHandling`
(`{SendRetained=0, SendRetainedOnNewSubscription=1, DoNotSendRetained=2}`);
the type is absent from the sources. -/
inductive RetainHandling where
  | sendRetained
  | sendRetainedOnNewSubscription
  | doNotSendRetained
deriving DecidableEq, Repr

/-- Modelled from the spec: the numeric value of each `RetainHandling`. -/
def retainHandlingVal : RetainHandling → Nat
  | .sendRetained => 0
  | .sendRetainedOnNewSubscription => 1
  | .doNotSendRetained => 2

/-- Modelled from the spec: `TopicFilter` — "topic name, QoS, no_local,
retain_as_published, RetainHandling"; the struct is absent from the
sources (only its caller `Client::subscribe` is present). -/
structure TopicFilter where
  name : List Nat
  qos : QoS
  no_local : Bool
  retain_as_published : Bool
  retain : RetainHandling

/-- Modelled from the spec: the options byte of one topic filter,
"`retain_handling<<4 | retain_as_published<<3 | no_local<<2 | qos`". -/
def topicFilterOptions (t : TopicFilter) : Nat :=
  (retainHandlingVal t.retain <<< 4) ||| (b2n t.retain_as_published <<< 3)
    ||| (b2n t.no_local <<< 2) ||| qosToU8 t.qos

/-- Modelled from the spec: the `TopicFilter`-based `Subscribe` body
encoder — "packet identifier u16 BE, property list, then one or more
topic filters each encoded as an EncodedStr followed by an options
byte" (the property list the client sends is empty). -/
def subscribeWriteTF (identifier : Nat) (topics : List TopicFilter) : List Nat :=
  u16be identifier ++ vbiSlice (vbiEncArr 0)
    ++ topics.flatMap fun t => encodedStrWrite t.name ++ [topicFilterOptions t]

/-- C6 (spec-modelled): for every SUBSCRIBE packet and every topic
filter in it, the encoder emits that filter's options byte as
`retain_handling<<4 | retain_as_published<<3 | no_local<<2 | qos`
(spelled here in carry-free arithmetic form). -/
theorem subscribe_options_byte (ident : Nat) (topics : List TopicFilter) :
    subscribeWriteTF ident topics
      = u16be ident ++ [0]
          ++ topics.flatMap (fun t =>
              encodedStrWrite t.name
                ++ [retainHandlingVal t.retain * 16 + b2n t.retain_as_published * 8
                    + b2n t.no_local * 4 + qosToU8 t.qos]) := by
  have hopt : ∀ t : TopicFilter,
      topicFilterOptions t
        = retainHandlingVal t.retain * 16 + b2n t.retain_as_published * 8
            + b2n t.no_local * 4 + qosToU8 t.qos := by
    intro t
    rcases t with ⟨name, q, nl, rap, rh⟩
    simp only [topicFilterOptions]
    cases q <;> cases nl <;> cases rap <;> cases rh <;> decide
  simp only [subscribeWriteTF, hopt]
  rfl

end MiniQTT
